import Mathlib

/-!
Verification of the metric-aggregation and OTLP-export components of the
opentelemetry-python repository, as a shallow embedding in Lean 4.

Each definition mirrors one Python class or function of the source tree
(file and line references are given in the doc comments).  Numeric
measurement values are modelled as `Int` (Python integers are exact and
unbounded) except for the explicit-bucket histogram, whose boundaries are
modelled as `ℚ`.  Python `None` becomes `Option`, the `inf` / `-inf`
sentinels used for running minima / maxima become `WithTop` / `WithBot`,
and code paths that raise exceptions return `Except PyErr`.
Attribute sets are carried through every aggregation unchanged and never
inspected, so they are omitted from the embedded states.
-/

deriving instance DecidableEq for Except

namespace OTel

/-- aggregation.py lines 64-73: the `AggregationTemporality` enum
(the integer values of the `IntEnum` are never used arithmetically). -/
inductive AggregationTemporality
  | UNSPECIFIED
  | DELTA
  | CUMULATIVE
deriving DecidableEq, Repr

/-- point.py `NumberDataPoint`: the timestamped scalar point produced by the
sum and last-value aggregations (attributes omitted, see the module comment). -/
structure NumberDataPoint where
  start_time_unix_nano : Int
  time_unix_nano : Int
  value : Int
deriving DecidableEq, Repr

/-- aggregation.py lines 107-124: the mutable state of `_SumAggregation`.
`_value` is `None` exactly when the Python attribute is `None`. -/
structure SumAggregation where
  _instrument_is_monotonic : Bool
  _instrument_temporality : AggregationTemporality
  _start_time_unix_nano : Int
  _value : Option Int
  _previous_point : Option NumberDataPoint
deriving DecidableEq, Repr

/-- aggregation.py lines 108-124: `_SumAggregation.__init__`; the accumulator
starts at `0` for DELTA instruments and at `None` otherwise. -/
def SumAggregation.init (instrument_is_monotonic : Bool)
    (instrument_temporality : AggregationTemporality)
    (start_time_unix_nano : Int) : SumAggregation :=
  { _instrument_is_monotonic := instrument_is_monotonic
    _instrument_temporality := instrument_temporality
    _start_time_unix_nano := start_time_unix_nano
    _value := if instrument_temporality = .DELTA then some 0 else none
    _previous_point := none }

/-- aggregation.py lines 126-130: `_SumAggregation.aggregate`; a `None`
accumulator is first replaced by `0`, then the measured value is added. -/
def SumAggregation.aggregate (a : SumAggregation) (value : Int) : SumAggregation :=
  { a with _value := some (a._value.getD 0 + value) }

/-- aggregation.py lines 159-194: the tail of `_SumAggregation.collect`, from
the construction of `current_point` to the return.  On the first collection,
or when the requested output temporality equals the instrument temporality,
the point is emitted unchanged; otherwise it is converted (subtract for
DELTA output, add for CUMULATIVE output) and the converted point is stored
as the previous point. -/
def SumAggregation.emit (a : SumAggregation) (current_point : NumberDataPoint)
    (aggregation_temporality : AggregationTemporality) :
    Option NumberDataPoint × SumAggregation :=
  match a._previous_point with
  | none => (some current_point, { a with _previous_point := some current_point })
  | some previous_point =>
    if a._instrument_temporality = aggregation_temporality then
      (some current_point, { a with _previous_point := some current_point })
    else if aggregation_temporality = .DELTA then
      let p : NumberDataPoint :=
        { start_time_unix_nano := previous_point.time_unix_nano
          time_unix_nano := current_point.time_unix_nano
          value := current_point.value - previous_point.value }
      (some p, { a with _previous_point := some p })
    else
      let p : NumberDataPoint :=
        { start_time_unix_nano := previous_point.start_time_unix_nano
          time_unix_nano := current_point.time_unix_nano
          value := current_point.value + previous_point.value }
      (some p, { a with _previous_point := some p })

/-- aggregation.py lines 132-194: `_SumAggregation.collect`.  For a DELTA
instrument the accumulator is read and reset to `0` and the interval start
is advanced; a point is always built (the accumulator of a DELTA instrument
is never `None`: it is initialised to `0` and reset to `0`, which the
`getD 0` mirrors).  For a CUMULATIVE instrument the accumulator is read and
set to `None`, and `None` is returned when no value is present. -/
def SumAggregation.collect (a : SumAggregation)
    (aggregation_temporality : AggregationTemporality)
    (collection_start_nano : Int) : Option NumberDataPoint × SumAggregation :=
  if a._instrument_temporality = .DELTA then
    let value := a._value.getD 0
    let start_time_unix_nano := a._start_time_unix_nano
    let a := { a with _value := some 0, _start_time_unix_nano := collection_start_nano }
    a.emit { start_time_unix_nano := start_time_unix_nano
             time_unix_nano := collection_start_nano
             value := value } aggregation_temporality
  else
    match a._value with
    | none => (none, a)
    | some value =>
      let start_time_unix_nano := a._start_time_unix_nano
      let a := { a with _value := none }
      a.emit { start_time_unix_nano := start_time_unix_nano
               time_unix_nano := collection_start_nano
               value := value } aggregation_temporality

/-- Folding a list of `add(v)` calls into a sum aggregation. -/
def SumAggregation.addAll (a : SumAggregation) (vs : List Int) : SumAggregation :=
  vs.foldl SumAggregation.aggregate a

/-- aggregation.py lines 197-225: `_LastValueAggregation` state. -/
structure LastValueAggregation where
  _value : Option Int
deriving DecidableEq, Repr

/-- `_LastValueAggregation.__init__`. -/
def LastValueAggregation.init : LastValueAggregation := { _value := none }

/-- aggregation.py lines 202-204: `_LastValueAggregation.aggregate` stores the
most recent measured value. -/
def LastValueAggregation.aggregate (a : LastValueAggregation) (value : Int) :
    LastValueAggregation :=
  { a with _value := some value }

/-- aggregation.py lines 206-225: `_LastValueAggregation.collect` returns
`None` when no value is stored, otherwise consumes the stored value (sets it
to `None`) and returns a point with `start_time_unix_nano = 0`.  The
`aggregation_temporality` parameter is accepted and ignored, as in the
source. -/
def LastValueAggregation.collect (a : LastValueAggregation)
    (aggregation_temporality : AggregationTemporality)
    (collection_start_nano : Int) : Option NumberDataPoint × LastValueAggregation :=
  match a._value with
  | none => (none, a)
  | some value =>
    (some { start_time_unix_nano := 0
            time_unix_nano := collection_start_nano
            value := value },
     { a with _value := none })

/-! Helper lemmas about the sum aggregation. -/

theorem aggregate_temporality (a : SumAggregation) (v : Int) :
    (a.aggregate v)._instrument_temporality = a._instrument_temporality := rfl

theorem addAll_temporality (a : SumAggregation) (vs : List Int) :
    (a.addAll vs)._instrument_temporality = a._instrument_temporality := by
  induction vs generalizing a with
  | nil => rfl
  | cons v rest ih =>
    simp only [SumAggregation.addAll, List.foldl_cons] at *
    exact ih (a.aggregate v)

theorem addAll_value (a : SumAggregation) (vs : List Int) (c : Int)
    (h : a._value = some c) : (a.addAll vs)._value = some (c + vs.sum) := by
  induction vs generalizing a c with
  | nil => simpa [SumAggregation.addAll] using h
  | cons v rest ih =>
    simp only [SumAggregation.addAll, List.foldl_cons] at *
    have hv : (a.aggregate v)._value = some (c + v) := by
      simp [SumAggregation.aggregate, h]
    have := ih (a.aggregate v) (c + v) hv
    simpa [add_assoc] using this

theorem collect_delta_same_temporality (a : SumAggregation) (t : Int) (w : Int)
    (h1 : a._instrument_temporality = .DELTA) (hv : a._value = some w) :
    a.collect .DELTA t =
      (some { start_time_unix_nano := a._start_time_unix_nano,
              time_unix_nano := t, value := w },
       { a with _value := some 0, _start_time_unix_nano := t,
                _previous_point :=
                  some { start_time_unix_nano := a._start_time_unix_nano,
                         time_unix_nano := t, value := w } }) := by
  cases hp : a._previous_point <;>
    simp [SumAggregation.collect, SumAggregation.emit, h1, hv, hp]

theorem collect_cumulative_same_temporality (a : SumAggregation) (t w : Int)
    (h1 : a._instrument_temporality = .CUMULATIVE) (hv : a._value = some w) :
    a.collect .CUMULATIVE t =
      (some { start_time_unix_nano := a._start_time_unix_nano,
              time_unix_nano := t, value := w },
       { a with _value := none,
                _previous_point :=
                  some { start_time_unix_nano := a._start_time_unix_nano,
                         time_unix_nano := t, value := w } }) := by
  cases hp : a._previous_point <;>
    simp [SumAggregation.collect, SumAggregation.emit, h1, hv, hp]

theorem collect_cumulative_none (a : SumAggregation) (t : Int)
    (att : AggregationTemporality)
    (h1 : a._instrument_temporality ≠ .DELTA) (hv : a._value = none) :
    a.collect att t = (none, a) := by
  simp [SumAggregation.collect, h1, hv]

/-- C1 (counterexample): on a fresh delta-temporality sum aggregator, after
`add(5)` and a `collect`, a second `collect` with no intervening `add` does
NOT return `null`: it returns a point with value `0`. -/
theorem sum_delta_second_collect_returns_zero_point :
    ((((SumAggregation.init true .DELTA 0).aggregate 5).collect .DELTA 1).fst.map
        NumberDataPoint.value = some 5)
    ∧ (((((SumAggregation.init true .DELTA 0).aggregate 5).collect .DELTA 1).snd.collect
        .DELTA 2).fst ≠ none)
    ∧ (((((SumAggregation.init true .DELTA 0).aggregate 5).collect .DELTA 1).snd.collect
        .DELTA 2).fst.map NumberDataPoint.value = some 0) := by
  decide

/-- C1 (amended): for every sequence of `add(v)` calls on a delta-temporality
sum aggregator, a `collect` (with DELTA output temporality) immediately after
returns a point whose value is the exact sum of the values added since the
previous collect; a subsequent collect with no intervening add returns a
point with value `0` (never `null`). -/
theorem sum_delta_collect_exact_sum_then_zero_point (a : SumAggregation)
    (vs : List Int) (t u : Int)
    (h1 : a._instrument_temporality = .DELTA) (h2 : a._value = some 0) :
    ((((a.addAll vs).collect .DELTA t).fst).map NumberDataPoint.value = some vs.sum)
    ∧ (((((a.addAll vs).collect .DELTA t).snd.collect .DELTA u).fst).map
        NumberDataPoint.value = some 0) := by
  have ht : (a.addAll vs)._instrument_temporality = .DELTA := by
    rw [addAll_temporality]; exact h1
  have hv : (a.addAll vs)._value = some vs.sum := by
    simpa using addAll_value a vs 0 h2
  have hc := collect_delta_same_temporality (a.addAll vs) t vs.sum ht hv
  refine ⟨by rw [hc]; rfl, ?_⟩
  rw [hc]
  rw [collect_delta_same_temporality _ u 0 (by exact ht) rfl]
  rfl

/-- C1 witness: the amended theorem applied to a fresh delta aggregator with
adds `[3, 4]`. -/
theorem sum_delta_collect_exact_sum_then_zero_point_witness :
    ((SumAggregation.init true .DELTA 0)._instrument_temporality = .DELTA
      ∧ (SumAggregation.init true .DELTA 0)._value = some 0)
    ∧ (((((SumAggregation.init true .DELTA 0).addAll [3, 4]).collect .DELTA 1).fst).map
          NumberDataPoint.value = some ([3, 4] : List Int).sum
       ∧ ((((((SumAggregation.init true .DELTA 0).addAll [3, 4]).collect .DELTA 1).snd.collect
          .DELTA 2).fst).map NumberDataPoint.value = some 0)) :=
  ⟨⟨by decide, by decide⟩,
   sum_delta_collect_exact_sum_then_zero_point (SumAggregation.init true .DELTA 0)
     [3, 4] 1 2 (by decide) (by decide)⟩

/-- The concrete scenario of C2: a monotonic counter (natural temporality
DELTA), `add(8)` four times with a `collect` between each at times 1..4,
recording the emitted point values. -/
def counter_rounds (aggregation_temporality : AggregationTemporality) :
    List (Option Int) :=
  let step := fun (st : SumAggregation × List (Option Int)) (t : Int) =>
    let a := st.fst.aggregate 8
    let r := a.collect aggregation_temporality t
    (r.snd, st.snd ++ [r.fst.map NumberDataPoint.value])
  (([1, 2, 3, 4] : List Int).foldl step (SumAggregation.init true .DELTA 0, [])).snd

/-- C2: for a sum aggregator with natural temporality DELTA collected with
requested output temporality CUMULATIVE, each non-first collected point has
`value = current.value + previous.value` and
`start_time = previous.start_time`; concretely, a monotonic counter given
`add(8)` four times with a collect between each yields points valued
8, 16, 24, 32 under CUMULATIVE output and 8, 8, 8, 8 under DELTA output. -/
theorem sum_delta_output_cumulative_adds_previous (a : SumAggregation)
    (prev : NumberDataPoint) (v t : Int)
    (h1 : a._instrument_temporality = .DELTA)
    (h2 : a._previous_point = some prev)
    (h3 : a._value = some v) :
    ((a.collect .CUMULATIVE t).fst =
      some { start_time_unix_nano := prev.start_time_unix_nano,
             time_unix_nano := t, value := v + prev.value })
    ∧ counter_rounds .CUMULATIVE = [some 8, some 16, some 24, some 32]
    ∧ counter_rounds .DELTA = [some 8, some 8, some 8, some 8] := by
  refine ⟨?_, by decide, by decide⟩
  simp [SumAggregation.collect, SumAggregation.emit, h1, h2, h3]

/-- A concrete delta-temporality sum aggregator that has already collected
once (previous point value 8) and accumulated 8 since. -/
def c2_aggregator : SumAggregation :=
  { _instrument_is_monotonic := true
    _instrument_temporality := .DELTA
    _start_time_unix_nano := 1
    _value := some 8
    _previous_point := some { start_time_unix_nano := 0, time_unix_nano := 1, value := 8 } }

/-- C2 witness: the theorem applied to `c2_aggregator` at collection time 2. -/
theorem sum_delta_output_cumulative_adds_previous_witness :
    (c2_aggregator._instrument_temporality = .DELTA
      ∧ c2_aggregator._previous_point =
          some { start_time_unix_nano := 0, time_unix_nano := 1, value := 8 }
      ∧ c2_aggregator._value = some 8)
    ∧ (((c2_aggregator.collect .CUMULATIVE 2).fst =
        some { start_time_unix_nano := 0, time_unix_nano := 2, value := 8 + 8 })
      ∧ counter_rounds .CUMULATIVE = [some 8, some 16, some 24, some 32]
      ∧ counter_rounds .DELTA = [some 8, some 8, some 8, some 8]) :=
  ⟨⟨rfl, rfl, rfl⟩,
   sum_delta_output_cumulative_adds_previous c2_aggregator
     { start_time_unix_nano := 0, time_unix_nano := 1, value := 8 } 8 2 rfl rfl rfl⟩

/-- C3 (counterexample): on a cumulative-temporality sum aggregator, `collect`
does reset the accumulator (to `None`), so after `add(1)`, `collect`,
`add(2)`, `collect`, the second collect returns 2 — the sum since the
previous collect — not the running total 3 since creation. -/
theorem sum_cumulative_collect_resets_counterexample :
    (((((SumAggregation.init true .CUMULATIVE 0).aggregate 1).collect
        .CUMULATIVE 1).snd.aggregate 2).collect .CUMULATIVE 2).fst.map
        NumberDataPoint.value = some 2
    ∧ ((((SumAggregation.init true .CUMULATIVE 0).aggregate 1).collect
        .CUMULATIVE 1).snd._value = none)
    ∧ ¬ (((((SumAggregation.init true .CUMULATIVE 0).aggregate 1).collect
        .CUMULATIVE 1).snd.aggregate 2).collect .CUMULATIVE 2).fst.map
        NumberDataPoint.value = some (1 + 2) := by
  decide

/-- C3 (amended): for every sequence of `add(v)` calls on a
cumulative-temporality (observable-instrument) sum aggregator, `collect`
(with CUMULATIVE output temporality) returns the sum of the values added
since the previous collect and resets the stored value to `None`; it returns
`null` when no add has occurred since the previous collect (or ever). -/
theorem sum_cumulative_collect_sum_since_previous (a : SumAggregation)
    (vs : List Int) (t : Int)
    (h1 : a._instrument_temporality = .CUMULATIVE)
    (h2 : a._value = none) (h3 : vs ≠ []) :
    (((a.addAll vs).collect .CUMULATIVE t).fst.map NumberDataPoint.value = some vs.sum)
    ∧ (((a.addAll vs).collect .CUMULATIVE t).snd._value = none)
    ∧ ((a.collect .CUMULATIVE t).fst = none) := by
  have ht : (a.addAll vs)._instrument_temporality = .CUMULATIVE := by
    rw [addAll_temporality]; exact h1
  have hv : (a.addAll vs)._value = some vs.sum := by
    cases vs with
    | nil => exact absurd rfl h3
    | cons v rest =>
      have h0 : (a.aggregate v)._value = some (0 + v) := by
        simp [SumAggregation.aggregate, h2]
      have := addAll_value (a.aggregate v) rest (0 + v) h0
      simp only [SumAggregation.addAll, List.foldl_cons]
      simpa [add_assoc] using this
  have hc := collect_cumulative_same_temporality (a.addAll vs) t vs.sum ht hv
  refine ⟨by rw [hc]; rfl, by rw [hc], ?_⟩
  rw [collect_cumulative_none a t .CUMULATIVE (by rw [h1]; decide) h2]

/-- C3 witness: the amended theorem applied to a fresh cumulative aggregator
with adds `[7, 2]` collected at time 3. -/
theorem sum_cumulative_collect_sum_since_previous_witness :
    ((SumAggregation.init true .CUMULATIVE 0)._instrument_temporality = .CUMULATIVE
      ∧ (SumAggregation.init true .CUMULATIVE 0)._value = none
      ∧ ([7, 2] : List Int) ≠ [])
    ∧ ((((SumAggregation.init true .CUMULATIVE 0).addAll [7, 2]).collect
          .CUMULATIVE 3).fst.map NumberDataPoint.value = some ([7, 2] : List Int).sum
      ∧ (((SumAggregation.init true .CUMULATIVE 0).addAll [7, 2]).collect
          .CUMULATIVE 3).snd._value = none
      ∧ ((SumAggregation.init true .CUMULATIVE 0).collect .CUMULATIVE 3).fst = none) :=
  ⟨⟨by decide, by decide, by decide⟩,
   sum_cumulative_collect_sum_since_previous (SumAggregation.init true .CUMULATIVE 0)
     [7, 2] 3 (by decide) (by decide) (by decide)⟩

/-- C10: for every last-value (gauge) aggregation, `collect` consumes the
stored value: it returns a point carrying the most recently aggregated value
and resets the stored value to `None`, so a second collect with no
intervening aggregate returns `None`, and a collect on an aggregation that
has never received a measurement also returns `None`. -/
theorem last_value_collect_consumes_value (a : LastValueAggregation)
    (v t u : Int) (att1 att2 att3 : AggregationTemporality) :
    (((a.aggregate v).collect att1 t).fst =
      some { start_time_unix_nano := 0, time_unix_nano := t, value := v })
    ∧ (((a.aggregate v).collect att1 t).snd._value = none)
    ∧ ((((a.aggregate v).collect att1 t).snd.collect att2 u).fst = none)
    ∧ ((LastValueAggregation.init.collect att3 t).fst = none) :=
  ⟨rfl, rfl, rfl, rfl⟩

/-! ## Explicit-bucket histogram aggregation (aggregation.py lines 228-362)

Measurement values and bucket boundaries are modelled as `ℚ`; the running
minimum and maximum use `WithTop ℚ` / `WithBot ℚ` so that the `inf` / `-inf`
sentinels of the source are representable. -/

/-- The binary-search loop of the Python standard-library function
`bisect_left(a, x)`: while `lo < hi`, probe `mid = (lo + hi) // 2`; if
`a[mid] < x` continue in the right half, else in the left half.  The result
is the leftmost insertion point for `x` in `a`.  The structural `fuel`
argument bounds the number of iterations; since `hi - lo` shrinks on every
iteration, any fuel of at least `hi - lo` yields the exact loop result
(`bisect_loop_spec` is proved for every sufficient fuel). -/
def bisect_loop (a : List ℚ) (x : ℚ) : Nat → Nat → Nat → Nat
  | 0, lo, _ => lo
  | fuel + 1, lo, hi =>
    if lo < hi then
      let mid := (lo + hi) / 2
      if a.getD mid 0 < x then bisect_loop a x fuel (mid + 1) hi
      else bisect_loop a x fuel lo mid
    else lo

/-- `bisect.bisect_left(a, x)` as called by
`_ExplicitBucketHistogramAggregation.aggregate` (aggregation.py line 279). -/
def bisect_left (a : List ℚ) (x : ℚ) : Nat :=
  bisect_loop a x a.length 0 a.length

/-- Increment position `i` of a count list by one (the effect of
`self._bucket_counts[i] += 1`; the index is always in range in the source,
see the last conjunct of `bisect_left_spec`). -/
def incrAt (l : List Int) (i : Nat) : List Int :=
  l.set i (l.getD i 0 + 1)

/-- aggregation.py lines 233-249 and 977-995: the default bucket boundaries. -/
def default_boundaries : List ℚ :=
  [0, 5, 10, 25, 50, 75, 100, 250, 500, 750, 1000, 2500, 5000, 7500, 10000]

/-- aggregation.py lines 228-264: the state of
`_ExplicitBucketHistogramAggregation`. -/
structure ExplicitBucketHistogramAggregation where
  _boundaries : List ℚ
  _bucket_counts : List Int
  _min : WithTop ℚ
  _max : WithBot ℚ
  _sum : ℚ
  _record_min_max : Bool
  _start_time_unix_nano : Int
deriving DecidableEq

/-- aggregation.py lines 229-267: `__init__` plus `_get_empty_bucket_counts`;
one count per boundary plus the overflow bucket, `min = inf`, `max = -inf`. -/
def ExplicitBucketHistogramAggregation.init (boundaries : List ℚ)
    (record_min_max : Bool) (start_time_unix_nano : Int) :
    ExplicitBucketHistogramAggregation :=
  { _boundaries := boundaries
    _bucket_counts := List.replicate (boundaries.length + 1) 0
    _min := ⊤
    _max := ⊥
    _sum := 0
    _record_min_max := record_min_max
    _start_time_unix_nano := start_time_unix_nano }

/-- aggregation.py lines 269-279: `aggregate` updates min / max when
recording is enabled, adds the value to the running sum, and increments the
bucket at index `bisect_left(boundaries, value)`. -/
def ExplicitBucketHistogramAggregation.aggregate
    (a : ExplicitBucketHistogramAggregation) (value : ℚ) :
    ExplicitBucketHistogramAggregation :=
  let a := if a._record_min_max then
      { a with _min := min a._min (value : WithTop ℚ)
               _max := max a._max (value : WithBot ℚ) }
    else a
  { a with _sum := a._sum + value
           _bucket_counts := incrAt a._bucket_counts (bisect_left a._boundaries value) }

/-- The bucket index described by the spec sentence for C9, following its
words: the position of the first boundary strictly greater than the measured
value (the list length, i.e. the overflow bucket, if there is none). -/
def first_boundary_strictly_greater (l : List ℚ) (v : ℚ) : Nat :=
  match l with
  | [] => 0
  | b :: rest => if v < b then 0 else first_boundary_strictly_greater rest v + 1

/-- Correctness of the `bisect_left` binary-search loop on a sorted list,
for every sufficient fuel `n ≥ hi - lo`: the result `r` satisfies
`lo ≤ r ≤ hi`, every boundary strictly before `r` is `< x`, and every
boundary from `r` on is `≥ x`. -/
theorem bisect_loop_spec (a : List ℚ) (x : ℚ)
    (hs : a.Pairwise (· ≤ ·)) :
    ∀ (n lo hi : Nat), hi - lo ≤ n → lo ≤ hi → hi ≤ a.length →
    (∀ i, i < lo → a.getD i 0 < x) →
    (∀ i, hi ≤ i → i < a.length → x ≤ a.getD i 0) →
    (∀ i, i < bisect_loop a x n lo hi → a.getD i 0 < x)
    ∧ (∀ i, bisect_loop a x n lo hi ≤ i → i < a.length → x ≤ a.getD i 0)
    ∧ lo ≤ bisect_loop a x n lo hi ∧ bisect_loop a x n lo hi ≤ hi := by
  have hget : ∀ i j, i < j → j < a.length → a.getD i 0 ≤ a.getD j 0 := by
    intro i j hij hj
    have hi : i < a.length := lt_trans hij hj
    rw [a.getD_eq_getElem 0 hi, a.getD_eq_getElem 0 hj]
    exact List.pairwise_iff_getElem.mp hs i j hi hj hij
  intro n
  induction n with
  | zero =>
    intro lo hi hn hlh hhl h4 h5
    have heq : lo = hi := by omega
    simp only [bisect_loop]
    exact ⟨fun i hilt => h4 i hilt, fun i hle hlt => h5 i (heq ▸ hle) hlt,
      le_refl _, heq ▸ le_refl _⟩
  | succ n ih =>
    intro lo hi hn hlh hhl h4 h5
    simp only [bisect_loop]
    by_cases hlt : lo < hi
    · simp only [hlt, if_true]
      by_cases hmid : a.getD ((lo + hi) / 2) 0 < x
      · simp only [hmid, if_true]
        have harg : ∀ i, i < (lo + hi) / 2 + 1 → a.getD i 0 < x := by
          intro i hi2
          rcases Nat.lt_or_ge i lo with h | h
          · exact h4 i h
          · rcases Nat.lt_or_ge i ((lo + hi) / 2) with h2 | h2
            · exact lt_of_le_of_lt (hget i ((lo + hi) / 2) h2 (by omega)) hmid
            · have hieq : i = (lo + hi) / 2 := by omega
              exact hieq ▸ hmid
        have hrec := ih ((lo + hi) / 2 + 1) hi (by omega) (by omega) hhl harg h5
        refine ⟨hrec.1, hrec.2.1, ?_, hrec.2.2.2⟩
        have hb := hrec.2.2.1
        omega
      · simp only [hmid, if_false]
        have harg : ∀ i, (lo + hi) / 2 ≤ i → i < a.length → x ≤ a.getD i 0 := by
          intro i hle hlt2
          rcases Nat.lt_or_ge i hi with h | h
          · rcases Nat.eq_or_lt_of_le hle with h2 | h2
            · exact h2 ▸ le_of_not_lt hmid
            · exact le_trans (le_of_not_lt hmid) (hget ((lo + hi) / 2) i h2 hlt2)
          · exact h5 i h hlt2
        have hrec := ih lo ((lo + hi) / 2) (by omega) (by omega) (by omega) h4 harg
        refine ⟨hrec.1, hrec.2.1, hrec.2.2.1, ?_⟩
        have hb := hrec.2.2.2
        omega
    · simp only [hlt, if_false]
      have heq : lo = hi := by omega
      exact ⟨fun i hilt => h4 i hilt, fun i hle hlt2 => h5 i (heq ▸ hle) hlt2,
        le_refl _, heq ▸ le_refl _⟩

/-- `bisect_left` on a sorted list returns the index of the first boundary
that is greater than or equal to `x` (the list length if all boundaries are
smaller). -/
theorem bisect_left_spec (a : List ℚ) (x : ℚ) (hs : a.Pairwise (· ≤ ·)) :
    (∀ i, i < bisect_left a x → a.getD i 0 < x)
    ∧ (∀ i, bisect_left a x ≤ i → i < a.length → x ≤ a.getD i 0)
    ∧ bisect_left a x ≤ a.length := by
  have := bisect_loop_spec a x hs a.length 0 a.length (by omega) (by omega)
    (le_refl _) (fun i hi => absurd hi (Nat.not_lt_zero i))
    (fun i hle hlt => absurd hlt (Nat.not_lt.mpr hle))
  exact ⟨this.1, this.2.1, this.2.2.2⟩

/-- The default explicit-bucket histogram aggregation (default boundaries,
min / max recording enabled). -/
def explicit_default_agg : ExplicitBucketHistogramAggregation :=
  ExplicitBucketHistogramAggregation.init default_boundaries true 0

/-- C9 (counterexample): for the measured value 5, which equals the second
boundary, `aggregate` increments bucket 1 — the position of the first
boundary greater than OR EQUAL to the value (`bisect_left`) — whereas the
first boundary STRICTLY greater than 5 is at position 2; the claim, as
stated, is false at this input. -/
theorem explicit_hist_boundary_equal_counterexample :
    bisect_left default_boundaries 5 = 1
    ∧ first_boundary_strictly_greater default_boundaries 5 = 2
    ∧ ¬ ((explicit_default_agg.aggregate 5)._bucket_counts
        = incrAt explicit_default_agg._bucket_counts
            (first_boundary_strictly_greater default_boundaries 5))
    ∧ (explicit_default_agg.aggregate 5)._bucket_counts
        = incrAt explicit_default_agg._bucket_counts 1 := by
  decide

/-- C9 (amended): for every measurement on an explicit-bucket histogram
aggregator with sorted boundaries, `aggregate` updates min / max when
recording is enabled, adds the value to the running sum, and increments the
bucket located (by binary search) at the first boundary greater than or
equal to the measured value; values exceeding all boundaries are counted in
the overflow bucket (index = number of boundaries). -/
theorem explicit_hist_aggregate_spec (a : ExplicitBucketHistogramAggregation)
    (v : ℚ) (hs : a._boundaries.Pairwise (· ≤ ·)) :
    ((a.aggregate v)._sum = a._sum + v)
    ∧ (a._record_min_max = true →
        (a.aggregate v)._min = min a._min (v : WithTop ℚ)
        ∧ (a.aggregate v)._max = max a._max (v : WithBot ℚ))
    ∧ (a._record_min_max = false →
        (a.aggregate v)._min = a._min ∧ (a.aggregate v)._max = a._max)
    ∧ ((a.aggregate v)._bucket_counts
        = incrAt a._bucket_counts (bisect_left a._boundaries v))
    ∧ (∀ i, i < bisect_left a._boundaries v → a._boundaries.getD i 0 < v)
    ∧ (bisect_left a._boundaries v < a._boundaries.length →
        v ≤ a._boundaries.getD (bisect_left a._boundaries v) 0)
    ∧ (bisect_left a._boundaries v ≤ a._boundaries.length) := by
  have hb := bisect_left_spec a._boundaries v hs
  refine ⟨?_, ?_, ?_, ?_, hb.1, fun h => hb.2.1 _ (le_refl _) h, hb.2.2⟩ <;>
    cases hr : a._record_min_max <;>
    simp [ExplicitBucketHistogramAggregation.aggregate, hr]

/-- A small explicit-bucket histogram aggregation used as the witness input. -/
def explicit_small_agg : ExplicitBucketHistogramAggregation :=
  ExplicitBucketHistogramAggregation.init [0, 5, 10] true 0

/-- C9 witness: the amended theorem applied to boundaries `[0, 5, 10]` and
measured value 7 (landing in bucket 2, the first boundary ≥ 7 being 10). -/
theorem explicit_hist_aggregate_spec_witness :
    (explicit_small_agg._boundaries.Pairwise (· ≤ ·))
    ∧ (((explicit_small_agg.aggregate 7)._sum = explicit_small_agg._sum + 7)
      ∧ (explicit_small_agg._record_min_max = true →
          (explicit_small_agg.aggregate 7)._min
            = min explicit_small_agg._min ((7 : ℚ) : WithTop ℚ)
          ∧ (explicit_small_agg.aggregate 7)._max
            = max explicit_small_agg._max ((7 : ℚ) : WithBot ℚ))
      ∧ (explicit_small_agg._record_min_max = false →
          (explicit_small_agg.aggregate 7)._min = explicit_small_agg._min
          ∧ (explicit_small_agg.aggregate 7)._max = explicit_small_agg._max)
      ∧ ((explicit_small_agg.aggregate 7)._bucket_counts
          = incrAt explicit_small_agg._bucket_counts
              (bisect_left explicit_small_agg._boundaries 7))
      ∧ (∀ i, i < bisect_left explicit_small_agg._boundaries 7 →
          explicit_small_agg._boundaries.getD i 0 < 7)
      ∧ (bisect_left explicit_small_agg._boundaries 7
            < explicit_small_agg._boundaries.length →
          (7 : ℚ) ≤ explicit_small_agg._boundaries.getD
              (bisect_left explicit_small_agg._boundaries 7) 0)
      ∧ (bisect_left explicit_small_agg._boundaries 7
          ≤ explicit_small_agg._boundaries.length)) :=
  ⟨by decide, explicit_hist_aggregate_spec explicit_small_agg 7 (by decide)⟩

/-! ## OTLP span exporter retry loop
(src/ext/opentelemetry-ext-otlpexporter/.../trace_exporter/__init__.py,
lines 213-263) -/

/-- The grpc status codes appearing in the exporter sources. -/
inductive StatusCode
  | OK
  | CANCELLED
  | DEADLINE_EXCEEDED
  | PERMISSION_DENIED
  | UNAUTHENTICATED
  | RESOURCE_EXHAUSTED
  | ABORTED
  | OUT_OF_RANGE
  | UNAVAILABLE
  | DATA_LOSS
  | INVALID_ARGUMENT
  | UNKNOWN
deriving DecidableEq, Repr

/-- The outcome of one network attempt as seen by the exporter: either the
`Export` call returns a response, or it raises `RpcError` carrying a status
code and an optional structured retry-delay hint (seconds) that the peer
attached as `google.rpc.retryinfo-bin` in the trailing response metadata. -/
inductive RpcAttempt
  | success
  | rpc_error (code : StatusCode) (retry_info : Option Int)
deriving DecidableEq, Repr

/-- What a call to `export` does, observably: it returns SUCCESS, returns
FAILURE, or lets an exception propagate past its boundary. -/
inductive ExportOutcome
  | SUCCESS
  | FAILURE
  | raised (code : StatusCode)
deriving DecidableEq, Repr

/-- trace_exporter/__init__.py lines 232-242: the status codes the handler
classifies as retryable. -/
def retryable_status_codes : List StatusCode :=
  [.CANCELLED, .DEADLINE_EXCEEDED, .PERMISSION_DENIED, .UNAUTHENTICATED,
   .RESOURCE_EXHAUSTED, .ABORTED, .OUT_OF_RANGE, .UNAVAILABLE, .DATA_LOSS]

/-- trace_exporter/__init__.py lines 213-263: `OTLPSpanExporter.export`, as
written.  The loop `for delay in expo(max_value=900)` makes one attempt per
backoff delay; `channel n` is the outcome of the n-th network attempt.  The
body of the first (and only reachable) iteration is: on a returned response,
`return SpanExportResult.SUCCESS` (line 227); on `RpcError`, the `except`
handler executes a bare `raise` as its first statement (line 230), which
re-raises the error out of `export` — the classification, retry-info and
sleep code below it (lines 232-261) is unreachable, so the loop never
reaches a second iteration and `sleep` is never called.  The second
component of the result is the list of performed `sleep` durations. -/
def OTLPSpanExporter.export (channel : Nat → RpcAttempt) :
    ExportOutcome × List Int :=
  match channel 0 with
  | .success => (.SUCCESS, [])
  | .rpc_error code _ => (.raised code, [])

/-- trace_exporter/__init__.py lines 232-261: what the unreachable handler
code below the bare `raise` would do with an `RpcError`, as written — used
only to state how far the executed behaviour diverges from it.  For a
retryable status it sleeps for the retry-info hint when present (else the
computed backoff delay) and continues; for OK it returns; any other status
is terminal FAILURE. -/
inductive HandlerAction
  | sleep_and_retry (delay : Int)
  | return_success
  | return_failure
deriving DecidableEq, Repr

/-- The classification implemented by the dead code of the handler
(trace_exporter/__init__.py lines 232-261). -/
def trace_exporter_dead_code_handler (code : StatusCode)
    (retry_info : Option Int) (delay : Int) : HandlerAction :=
  if code ∈ retryable_status_codes then
    .sleep_and_retry (retry_info.getD delay)
  else if code = .OK then
    .return_success
  else
    .return_failure

/-- C4: evaluation of `export` at the failing input.  A transport failure is
NOT translated to FAILURE: the bare `raise` lets the `RpcError` escape the
`export` boundary (`.raised`), while a successful network call does return
SUCCESS immediately.  (The metrics exporter cannot even be constructed:
its `__init__` reads the undefined attribute `self.endpoint`, and its
success path returns the misspelled `MetricsExportResult.SUCESS`.) -/
theorem otlp_span_export_raises :
    (OTLPSpanExporter.export fun _ => .rpc_error .UNAVAILABLE none)
      = (.raised .UNAVAILABLE, [])
    ∧ (OTLPSpanExporter.export fun _ => .success) = (.SUCCESS, []) := by
  exact ⟨rfl, rfl⟩

/-- C5: evaluation of `export` at the failing inputs.  For a retryable
status (UNAVAILABLE) with a retry-delay hint of 4 seconds attached, the
exporter neither sleeps nor retries: it raises and performs no sleep (empty
sleep list) — even though the (unreachable) classification code below the
`raise` would have slept 4 seconds and retried.  For a non-retryable status
(INVALID_ARGUMENT) the exporter raises instead of returning FAILURE. -/
theorem otlp_span_export_retryable_no_sleep :
    (StatusCode.UNAVAILABLE ∈ retryable_status_codes)
    ∧ (OTLPSpanExporter.export fun _ => .rpc_error .UNAVAILABLE (some 4))
        = (.raised .UNAVAILABLE, [])
    ∧ trace_exporter_dead_code_handler .UNAVAILABLE (some 4) 1
        = .sleep_and_retry 4
    ∧ (StatusCode.INVALID_ARGUMENT ∉ retryable_status_codes)
    ∧ (OTLPSpanExporter.export fun _ => .rpc_error .INVALID_ARGUMENT none)
        = (.raised .INVALID_ARGUMENT, [])
    ∧ trace_exporter_dead_code_handler .INVALID_ARGUMENT none 1
        = .return_failure := by
  refine ⟨by decide, rfl, by decide, by decide, rfl, by decide⟩

/-! ## Exponential-bucket histogram: backing store and bucket set
(exponential_histogram/buckets.py) -/

/-- buckets.py lines 65-126: `VariableWidthBacking`, a count array. -/
structure VariableWidthBacking where
  _counts : List Int
deriving DecidableEq, Repr

/-- buckets.py lines 66-68: `__init__` starts with a single zero count. -/
def VariableWidthBacking.init : VariableWidthBacking := { _counts := [0] }

/-- buckets.py lines 70-75: `size()` is the physical length of the array
(kept as `Int`, matching the Python arithmetic it participates in). -/
def VariableWidthBacking.size (b : VariableWidthBacking) : Int :=
  (b._counts.length : Int)

/-- buckets.py lines 77-87: `grow(new_size, old_positive_limit,
new_positive_limit)`.  The three Python statements are
`tmp = [0] * new_size`, `tmp[new_positive_limit:] = counts[old_positive_limit:]`
and `tmp[0:old_positive_limit] = counts[0:old_positive_limit]`, modelled by
the corresponding take / drop slice assignments.  (All arguments are
non-negative at the call sites, so they are taken as `Nat`.) -/
def VariableWidthBacking.grow (b : VariableWidthBacking)
    (new_size old_positive_limit new_positive_limit : Nat) :
    VariableWidthBacking :=
  let tmp := List.replicate new_size (0 : Int)
  let tmp := tmp.take new_positive_limit ++ b._counts.drop old_positive_limit
  let tmp := b._counts.take old_positive_limit ++ tmp.drop old_positive_limit
  { _counts := tmp }

/-- buckets.py lines 89-95: `reverse(start, end)` reverses the slice
`[start, end)` in place. -/
def VariableWidthBacking.reverse (b : VariableWidthBacking)
    (start stop : Nat) : VariableWidthBacking :=
  { _counts := b._counts.take start
      ++ ((b._counts.drop start).take (stop - start)).reverse
      ++ b._counts.drop stop }

/-- buckets.py lines 97-105: `empty_bucket(src)` returns the count at `src`
and zeroes it. -/
def VariableWidthBacking.empty_bucket (b : VariableWidthBacking) (src : Nat) :
    Int × VariableWidthBacking :=
  (b._counts.getD src 0, { _counts := b._counts.set src 0 })

/-- buckets.py lines 107-112: `increment(bucket_index, increment)`; the
index is always in range at the call sites. -/
def VariableWidthBacking.increment (b : VariableWidthBacking)
    (bucket_index : Nat) (incr : Int) : VariableWidthBacking :=
  { _counts := b._counts.set bucket_index (b._counts.getD bucket_index 0 + incr) }

/-- buckets.py lines 114-119: `count_at(pos)`; the position is always in
range at the call sites. -/
def VariableWidthBacking.count_at (b : VariableWidthBacking) (pos : Nat) : Int :=
  b._counts.getD pos 0

/-- buckets.py lines 121-126: `reset()` zeroes every count. -/
def VariableWidthBacking.reset (b : VariableWidthBacking) : VariableWidthBacking :=
  { _counts := List.replicate b._counts.length 0 }

/-- buckets.py lines 129-149: the `Buckets` bucket set.  The extra field
`_counts_attr` models the Python instance attribute `_counts` that
`_ExponentialBucketHistogramAggregation.collect` (aggregation.py lines
457-458) assigns on the `Buckets` object — `Buckets.__init__` never defines
such an attribute, so it starts absent (`none`). -/
structure Buckets where
  _backing : VariableWidthBacking
  _index_base : Int
  _index_start : Int
  _index_end : Int
  _counts_attr : Option (List Int)
deriving DecidableEq, Repr

/-- buckets.py lines 130-149: `Buckets.__init__`. -/
def Buckets.init : Buckets :=
  { _backing := VariableWidthBacking.init
    _index_base := 0
    _index_start := 0
    _index_end := 0
    _counts_attr := none }

/-- buckets.py lines 151-152: `offset()`. -/
def Buckets.offset (b : Buckets) : Int := b._index_start

/-- buckets.py lines 164-172: `at(position)` (named `at_position` here
because `at` is a Lean keyword): translate the logical position through the
base / start bias, wrapping around the circular backing array. -/
def Buckets.at_position (b : Buckets) (position : Int) : Int :=
  let bias := b._index_base - b._index_start
  let position := if position < bias then position + b._backing.size else position
  let position := position - bias
  b._backing.count_at position.toNat

/-- buckets.py lines 154-161: `len()`. -/
def Buckets.len (b : Buckets) : Int :=
  if b._backing.size = 0 then 0
  else if b._index_end = b._index_start ∧ b.at_position 0 = 0 then 0
  else b._index_end - b._index_start + 1

/-- buckets.py lines 229-230: `increment_bucket(bucket_index, incr)`. -/
def Buckets.increment_bucket (b : Buckets) (bucket_index : Int) (incr : Int) :
    Buckets :=
  { b with _backing := b._backing.increment bucket_index.toNat incr }

/-- buckets.py lines 174-180: `clear()`. -/
def Buckets.clear (b : Buckets) : Buckets :=
  { b with _index_base := 0, _index_start := 0, _index_end := 0,
           _backing := b._backing.reset }

/-- buckets.py lines 212-223: the inner while loop of `Buckets.downscale`
(`while index < each and inpos < size`): move the count at `inpos` into
`outpos` (unless they coincide) and advance `inpos`, `pos`, `index`.
Returns the updated backing together with `inpos` and `pos`.  The
structural `fuel` bounds the iterations; `inpos` increases by one per
iteration and the loop stops at `inpos = size`, so any fuel of at least
`size` is sufficient (callers pass `size + 1`). -/
def Buckets.downscale_inner (bk : VariableWidthBacking)
    (outpos inpos pos index each size : Int) :
    Nat → VariableWidthBacking × Int × Int
  | 0 => (bk, inpos, pos)
  | fuel + 1 =>
    if index < each ∧ inpos < size then
      let bk := if outpos ≠ inpos then
          let r := bk.empty_bucket inpos.toNat
          r.2.increment outpos.toNat r.1
        else bk
      Buckets.downscale_inner bk outpos (inpos + 1) (pos + 1) (index + 1)
        each size fuel
    else (bk, inpos, pos)

/-- buckets.py lines 198-223: the outer while loop of `Buckets.downscale`
(`while pos <= index_end`): compute `mod = pos % each` (made non-negative),
run the inner loop starting at `index = mod`, then advance `outpos`.  The
inner loop advances `pos` at least once per outer iteration while
`pos ≤ index_end`, so any fuel of at least `size + 1` outer iterations is
sufficient (callers pass `size + 2`). -/
def Buckets.downscale_outer (bk : VariableWidthBacking)
    (outpos inpos pos each size index_end : Int) :
    Nat → VariableWidthBacking
  | 0 => bk
  | fuel + 1 =>
    if pos ≤ index_end then
      let m := pos % each
      let m := if m < 0 then m + each else m
      let r := Buckets.downscale_inner bk outpos inpos pos m each size
        (size.toNat + 1)
      Buckets.downscale_outer r.1 (outpos + 1) r.2.1 r.2.2 each size index_end fuel
    else bk

/-- buckets.py lines 183-227: `downscale(by)`. Rotate the circular backing
into canonical position when the bias is non-zero (three slice reversals),
fold each group of `2^by` adjacent buckets into one, then arithmetically
shift the index fields right by `by` and set the base to the new start. -/
def Buckets.downscale (b : Buckets) (by_ : Nat) : Buckets :=
  let bias := b._index_base - b._index_start
  let bk :=
    if bias ≠ 0 then
      let bk := b._backing.reverse 0 b._backing._counts.length
      let bk := bk.reverse 0 bias.toNat
      bk.reverse bias.toNat bk._counts.length
    else b._backing
  let size := 1 + b._index_end - b._index_start
  let each : Int := 2 ^ by_
  let bk := Buckets.downscale_outer bk 0 0 b._index_start each size
    b._index_end (size.toNat + 2)
  { b with _backing := bk
           _index_start := b._index_start >>> by_
           _index_end := b._index_end >>> by_
           _index_base := b._index_start >>> by_ }

/-! ## Exponential-bucket histogram aggregation
(aggregation.py lines 365-873) -/

/-- Python exceptions raised by the exponential-histogram update path. -/
inductive PyErr
  /-- `AttributeError`: `VariableWidthBacking` object has no attribute
  `grow_to` (raised at aggregation.py line 766). -/
  | attribute_error_grow_to
  /-- `Exception("Downscale logic error")` (aggregation.py line 686). -/
  | downscale_logic_error
deriving DecidableEq, Repr

/-- Modelled from the spec: the value of `LogarithmMapping._max_scale`, the
initial (maximum) scale of the mapping; the mapping modules
(exponential_histogram/mapping/) are not under src/.  Its exact value does
not affect any claim below. -/
def logarithm_mapping_max_scale : Int := 20

/-- Modelled from the spec: the mapping modules (exponent_mapping.py and
logarithm_mapping.py) are not under src/.  Per the spec (section 4.3), at
scale `s` a value maps to index `floor(log2(value) * 2^s)`; consequently
lowering the scale by `k` replaces an index `j` by the arithmetic shift
`j >> k` (because `floor(floor(y * 2^s) / 2^k) = floor(y * 2^(s-k))`).
A measurement is therefore represented by the index its absolute value maps
to at the initial scale (`logarithm_mapping_max_scale`), and the current
mapping by the accumulated downscale `shift`; `map_to_index` at the current
scale is the initial-scale index shifted right by `shift`. -/
def map_to_index (index_at_initial_scale : Int) (shift : Nat) : Int :=
  index_at_initial_scale >>> shift

/-- A measurement fed to the exponential-bucket histogram: its numeric value
(an exact integer in this model) together with the spec-modelled index of
its absolute value at the initial scale (see `map_to_index`). -/
structure EHMeasurement where
  value : Int
  index_at_initial_scale : Int
deriving DecidableEq, Repr

/-- point.py `Buckets` (imported as `BucketsPoint` in aggregation.py): the
offset / bucket-count pair carried by an emitted exponential point.
In aggregation.py lines 476-481 and 547-548 the source passes the bound
method `self._positive.offset` WITHOUT calling it (every other use site,
line 830, calls `offset()`); the value the method would return is used
here, the slip being orthogonal to the claims below. -/
structure BucketsPoint where
  offset : Int
  bucket_counts : List Int
deriving DecidableEq, Repr

/-- point.py `ExponentialHistogramDataPoint` (attributes omitted). -/
structure ExponentialHistogramDataPoint where
  start_time_unix_nano : Int
  time_unix_nano : Int
  count : Int
  sum : Int
  scale : Int
  zero_count : Int
  positive : BucketsPoint
  negative : BucketsPoint
  flags : Int
  min : WithTop Int
  max : WithBot Int
deriving DecidableEq, Repr

/-- aggregation.py lines 366-425: the state of
`_ExponentialBucketHistogramAggregation`.  `shift` is the spec-modelled
mapping state (see `map_to_index`); `_min` / `_max` start at the integer 0
and are set to `inf` / `-inf` (`⊤` / `⊥`) by the reset in `collect`. -/
structure ExponentialBucketHistogramAggregation where
  _max_size : Int
  shift : Nat
  _sum : Int
  _count : Int
  _zero_count : Int
  _min : WithTop Int
  _max : WithBot Int
  _positive : Buckets
  _negative : Buckets
  _instrument_temporality : AggregationTemporality
  _start_time_unix_nano : Int
  _previous_point : Option ExponentialHistogramDataPoint
deriving DecidableEq, Repr

/-- aggregation.py lines 376-425: `__init__`.  The constructor validates
`2 ≤ max_size ≤ 16384` and raises otherwise; every use below passes a valid
size, so the check is not modelled. -/
def ExponentialBucketHistogramAggregation.init
    (max_size start_time_unix_nano : Int) :
    ExponentialBucketHistogramAggregation :=
  { _max_size := max_size
    shift := 0
    _sum := 0
    _count := 0
    _zero_count := 0
    _min := ((0 : Int) : WithTop Int)
    _max := ((0 : Int) : WithBot Int)
    _positive := Buckets.init
    _negative := Buckets.init
    _instrument_temporality := .DELTA
    _start_time_unix_nano := start_time_unix_nano
    _previous_point := none }

/-- aggregation.py lines 427-432: the `_scale` property. -/
def ExponentialBucketHistogramAggregation._scale
    (s : ExponentialBucketHistogramAggregation) : Int :=
  if s._count = s._zero_count then 0
  else logarithm_mapping_max_scale - s.shift

/-- aggregation.py lines 751-768: `_grow(buckets, needed)`.  The body
computes `size`, `bias`, the old and new positive limits and the new size
(`_power_of_two_rounded_up(needed)` capped at `max_size`) — all of it free
of side effects — and then invokes `buckets._backing.grow_to(...)`.  The
backing class defines `grow`, not `grow_to` (buckets.py line 77), and no
`grow_to` exists anywhere in the repository, so the call raises
`AttributeError` and nothing is grown. -/
def ExponentialBucketHistogramAggregation._grow (buckets : Buckets)
    (needed : Int) : Except PyErr Buckets :=
  .error .attribute_error_grow_to

/-- aggregation.py lines 742-749: the tail of `_increment_index_by` —
translate the index through the base, wrapping negatives around the
circular backing, and increment that bucket. -/
def increment_at (buckets : Buckets) (index : Int) (incr : Int) : Buckets :=
  let bucket_index := index - buckets._index_base
  let bucket_index :=
    if bucket_index < 0 then bucket_index + buckets._backing.size
    else bucket_index
  buckets.increment_bucket bucket_index incr

/-- aggregation.py lines 688-749: `_increment_index_by(buckets, index,
incr)`.  Returns `(buckets, low, high, success)` as in the source; the
growth path propagates the `AttributeError` raised by `_grow`. -/
def ExponentialBucketHistogramAggregation._increment_index_by
    (max_size : Int) (buckets : Buckets) (index : Int) (incr : Int) :
    Except PyErr (Buckets × Int × Int × Bool) :=
  if incr = 0 then
    .ok (buckets, 0, 0, true)
  else if buckets.len = 0 then
    let buckets := { buckets with
      _index_start := index, _index_end := index, _index_base := index }
    .ok (increment_at buckets index incr, 0, 0, true)
  else if index < buckets._index_start then
    let span := buckets._index_end - index
    if span ≥ max_size then
      .ok (buckets, index, buckets._index_end, false)
    else do
      let buckets ←
        if span ≥ buckets._backing.size then
          ExponentialBucketHistogramAggregation._grow buckets (span + 1)
        else pure buckets
      let buckets := { buckets with _index_start := index }
      .ok (increment_at buckets index incr, 0, 0, true)
  else if index > buckets._index_end then
    let span := index - buckets._index_start
    if span ≥ max_size then
      .ok (buckets, buckets._index_start, index, false)
    else do
      let buckets ←
        if span ≥ buckets._backing.size then
          ExponentialBucketHistogramAggregation._grow buckets (span + 1)
        else pure buckets
      let buckets := { buckets with _index_end := index }
      .ok (increment_at buckets index incr, 0, 0, true)
  else
    .ok (increment_at buckets index incr, 0, 0, true)

/-- The loop of `_change_scale` (aggregation.py lines 661-668): while
`high - low ≥ size`, shift both ends right and count one scale change.  The
structural fuel bounds the iterations; with `size ≥ 2` (guaranteed by the
constructor check on `max_size`) the span `high - low` strictly decreases
each iteration, so a fuel of `(high - low).toNat + 1` always suffices. -/
def change_scale_loop (high low size : Int) : Nat → Nat
  | 0 => 0
  | fuel + 1 =>
    if high - low ≥ size then
      change_scale_loop (high >>> 1) (low >>> 1) size fuel + 1
    else 0

/-- aggregation.py lines 655-668: `_change_scale(high, low, size)` computes
how much downscaling is needed by shifting `high` and `low` until they are
separated by less than `size`. -/
def ExponentialBucketHistogramAggregation._change_scale
    (high low size : Int) : Nat :=
  change_scale_loop high low size ((high - low).toNat + 1)

/-- aggregation.py lines 631-652: `_downscale(change)` downscales both
bucket sets and rebuilds the mapping at the new scale (spec-modelled by
adding `change` to `shift`; the choice between `ExponentMapping` and
`LogarithmMapping` only affects how the same index function is computed).
`change` is a `Nat`, so the negative-change error path cannot arise. -/
def ExponentialBucketHistogramAggregation._downscale
    (s : ExponentialBucketHistogramAggregation) (change : Nat) :
    ExponentialBucketHistogramAggregation :=
  if change = 0 then s
  else
    { s with _positive := s._positive.downscale change
             _negative := s._negative.downscale change
             shift := s.shift + change }

/-- The bucket set selected by the sign of the measured value
(aggregation.py lines 623-627). -/
def ExponentialBucketHistogramAggregation.getBuckets
    (s : ExponentialBucketHistogramAggregation) (positive : Bool) : Buckets :=
  if positive then s._positive else s._negative

/-- Store back the bucket set selected by the sign. -/
def ExponentialBucketHistogramAggregation.setBuckets
    (s : ExponentialBucketHistogramAggregation) (positive : Bool)
    (b : Buckets) : ExponentialBucketHistogramAggregation :=
  if positive then { s with _positive := b } else { s with _negative := b }

/-- aggregation.py lines 670-686: `_update(buckets, value, incr)`.  Map the
value at the current scale and try to record it; on failure, downscale by
`_change_scale(high, low, max_size)` and retry; a second failure raises the
downscale logic error. -/
def ExponentialBucketHistogramAggregation._update
    (s : ExponentialBucketHistogramAggregation) (positive : Bool)
    (j incr : Int) : Except PyErr ExponentialBucketHistogramAggregation := do
  let index := map_to_index j s.shift
  let r ← ExponentialBucketHistogramAggregation._increment_index_by
    s._max_size (s.getBuckets positive) index incr
  if r.2.2.2 then
    return s.setBuckets positive r.1
  else
    let s := s._downscale
      (ExponentialBucketHistogramAggregation._change_scale r.2.2.1 r.2.1 s._max_size)
    let index := map_to_index j s.shift
    let r ← ExponentialBucketHistogramAggregation._increment_index_by
      s._max_size (s.getBuckets positive) index incr
    if r.2.2.2 then
      return s.setBuckets positive r.1
    else
      throw .downscale_logic_error

/-- aggregation.py lines 601-629: `_update_by_incr(number, incr)` — update
min / max (first measurement initialises both), bump the count, route exact
zeros to the zero count, add to the sum and record into the positive or
negative bucket set according to the sign. -/
def ExponentialBucketHistogramAggregation._update_by_incr
    (s : ExponentialBucketHistogramAggregation) (m : EHMeasurement)
    (incr : Int) : Except PyErr ExponentialBucketHistogramAggregation := do
  let s :=
    if s._count = 0 then
      { s with _min := (m.value : WithTop Int), _max := (m.value : WithBot Int) }
    else
      let s := if (m.value : WithTop Int) < s._min then
          { s with _min := (m.value : WithTop Int) } else s
      if (m.value : WithBot Int) > s._max then
        { s with _max := (m.value : WithBot Int) } else s
  let s := { s with _count := s._count + incr }
  if m.value = 0 then
    return { s with _zero_count := s._zero_count + incr }
  else
    let s := { s with _sum := s._sum + m.value * incr }
    if m.value > 0 then
      ExponentialBucketHistogramAggregation._update s true
        m.index_at_initial_scale incr
    else
      ExponentialBucketHistogramAggregation._update s false
        m.index_at_initial_scale incr

/-- aggregation.py lines 434-435: `aggregate(measurement)` is
`_update_by_incr(measurement.value, 1)`. -/
def ExponentialBucketHistogramAggregation.aggregate
    (s : ExponentialBucketHistogramAggregation) (m : EHMeasurement) :
    Except PyErr ExponentialBucketHistogramAggregation :=
  s._update_by_incr m 1

/-- Python `any()` over a count list: true when some count is non-zero. -/
def anyNonzero (l : List Int) : Bool := l.any (fun c => c ≠ 0)

/-- aggregation.py lines 437-556: `collect(aggregation_temporality,
collection_start_nano)`.  Notable, faithfully modelled source behaviour:
`self._negative._counts = [0]` and `self._positive._counts = [0]` (lines
457-458) assign a fresh instance attribute `_counts` on the `Buckets`
objects and leave the backing arrays untouched; the emitted point then
reads `self._positive._backing._counts` (the live, un-reset backing) for
the positive side but `self._negative._counts` (the just-assigned `[0]`)
for the negative side; `_count`, `_zero_count` and the mapping are not
reset either.  The temporality-conversion tail adds bucket counts
element-wise in both branches. -/
def ExponentialBucketHistogramAggregation.collect
    (s : ExponentialBucketHistogramAggregation)
    (aggregation_temporality : AggregationTemporality)
    (collection_start_nano : Int) :
    Option ExponentialHistogramDataPoint × ExponentialBucketHistogramAggregation :=
  if ¬ anyNonzero s._negative._backing._counts
      ∧ ¬ anyNonzero s._positive._backing._counts then
    (none, s)
  else
    let start_time_unix_nano := s._start_time_unix_nano
    let sum_ := s._sum
    let max_ := s._max
    let min_ := s._min
    let s := { s with
      _negative := { s._negative with _counts_attr := some [0] }
      _positive := { s._positive with _counts_attr := some [0] }
      _start_time_unix_nano := collection_start_nano
      _sum := 0
      _min := ⊤
      _max := ⊥ }
    let current_point : ExponentialHistogramDataPoint :=
      { start_time_unix_nano := start_time_unix_nano
        time_unix_nano := collection_start_nano
        count := s._negative._backing._counts.sum
          + s._positive._backing._counts.sum + s._zero_count
        sum := sum_
        scale := s._scale
        zero_count := s._zero_count
        positive := { offset := s._positive.offset
                      bucket_counts := s._positive._backing._counts }
        negative := { offset := s._negative.offset
                      bucket_counts := s._negative._counts_attr.getD [] }
        flags := 0
        min := min_
        max := max_ }
    match s._previous_point with
    | none => (some current_point, { s with _previous_point := some current_point })
    | some previous_point =>
      if s._instrument_temporality = aggregation_temporality then
        (some current_point, { s with _previous_point := some current_point })
      else
        let max_ := current_point.max
        let min_ := current_point.min
        let r :=
          if aggregation_temporality = .CUMULATIVE then
            (previous_point.start_time_unix_nano,
             current_point.sum + previous_point.sum,
             max current_point.max previous_point.max,
             min current_point.min previous_point.min,
             List.zipWith (· + ·) current_point.negative.bucket_counts
               previous_point.negative.bucket_counts,
             List.zipWith (· + ·) current_point.positive.bucket_counts
               previous_point.positive.bucket_counts)
          else
            (previous_point.time_unix_nano,
             current_point.sum - previous_point.sum,
             max_, min_,
             List.zipWith (· + ·) current_point.negative.bucket_counts
               previous_point.negative.bucket_counts,
             List.zipWith (· + ·) current_point.positive.bucket_counts
               previous_point.positive.bucket_counts)
        let current_point : ExponentialHistogramDataPoint :=
          { start_time_unix_nano := r.1
            time_unix_nano := current_point.time_unix_nano
            count := r.2.2.2.2.1.sum + r.2.2.2.2.2.sum + s._zero_count
            sum := r.2.1
            scale := s._scale
            zero_count := s._zero_count
            positive := { offset := s._positive.offset
                          bucket_counts := r.2.2.2.2.2 }
            negative := { offset := s._negative.offset
                          bucket_counts := r.2.2.2.2.1 }
            flags := 0
            min := r.2.2.2.1
            max := r.2.2.1 }
        (some current_point, { s with _previous_point := some current_point })

/-! ## Theorems about the exponential-bucket histogram (C6, C7, C8) -/

theorem getD_take_lt (l : List Int) (k p : Nat) (h : p < k) :
    (l.take k).getD p 0 = l.getD p 0 := by
  simp [List.getD, List.getElem?_take, h]

theorem getD_drop_add (l : List Int) (k p : Nat) :
    (l.drop k).getD p 0 = l.getD (k + p) 0 := by
  simp [List.getD, List.getElem?_drop]

/-- The effect of `VariableWidthBacking.grow` on the count list: the lower
(un-wrapped) part stays in place, the upper (wrapped) part moves to the end
of the enlarged array, zeros fill the gap — exactly the two Python slice
assignments. -/
theorem grow_counts_eq (bk : VariableWidthBacking) (new_size old_pos new_pos : Nat)
    (h1 : old_pos ≤ bk._counts.length) (h2 : old_pos ≤ new_pos)
    (h3 : new_pos ≤ new_size) :
    (bk.grow new_size old_pos new_pos)._counts
      = bk._counts.take old_pos ++ List.replicate (new_pos - old_pos) 0
          ++ bk._counts.drop old_pos := by
  simp only [VariableWidthBacking.grow]
  rw [List.take_replicate]
  rw [min_eq_left h3]
  rw [List.drop_append_eq_append_drop]
  rw [List.length_replicate, List.drop_replicate]
  have hz : old_pos - new_pos = 0 := by omega
  rw [hz, List.drop_zero, List.append_assoc]

/-- The growth step that `_grow` intends (the backing `grow` method with the
arguments `_grow` computes: `old_positive_limit = size - bias`,
`new_positive_limit = new_size - bias`) preserves every logical bucket
count: `at(i)` is unchanged for every occupied position.  This is the
content of the C8 claim, proved for the growth operation the repository
actually defines; the `_grow` wrapper never reaches it (see
`expo_hist_grow_crashes`). -/
theorem backing_grow_preserves_at_position
    (c : List Int) (base start stop : Int) (attr : Option (List Int))
    (new_size : Nat)
    (hbias : 0 ≤ base - start) (hbase : base ≤ stop)
    (hspan : stop - start < (c.length : Int)) (hns : c.length ≤ new_size) :
    ∀ i : Int, 0 ≤ i → i ≤ stop - start →
      Buckets.at_position
        { _backing := (VariableWidthBacking.grow ⟨c⟩ new_size
            (c.length - (base - start).toNat) (new_size - (base - start).toNat))
          _index_base := base, _index_start := start, _index_end := stop
          _counts_attr := attr } i
      = Buckets.at_position
        { _backing := ⟨c⟩, _index_base := base, _index_start := start,
          _index_end := stop, _counts_attr := attr } i := by
  intro i hi0 hiE
  have hnbn : ((base - start).toNat : Int) = base - start :=
    Int.toNat_of_nonneg hbias
  have h1 : c.length - (base - start).toNat ≤ c.length := by omega
  have h2 : c.length - (base - start).toNat ≤ new_size - (base - start).toNat := by
    omega
  have h3 : new_size - (base - start).toNat ≤ new_size := by omega
  have hnblt : (base - start).toNat < c.length := by omega
  have hg := grow_counts_eq ⟨c⟩ new_size (c.length - (base - start).toNat)
    (new_size - (base - start).toNat) h1 h2 h3
  have htl : (c.take (c.length - (base - start).toNat)).length
      = c.length - (base - start).toNat := by
    simp only [List.length_take]
    omega
  have hlen2 : (c.take (c.length - (base - start).toNat)
      ++ List.replicate ((new_size - (base - start).toNat)
          - (c.length - (base - start).toNat)) 0
      ++ c.drop (c.length - (base - start).toNat)).length = new_size := by
    simp only [List.length_append, List.length_take, List.length_replicate,
      List.length_drop]
    omega
  simp only [Buckets.at_position, VariableWidthBacking.size,
    VariableWidthBacking.count_at, hg, hlen2]
  by_cases hcase : i < base - start
  · simp only [hcase, if_true]
    have hk1 : (i + (new_size : Int) - (base - start)).toNat
        = (new_size - (base - start).toNat)
          + ((i + (c.length : Int) - (base - start)).toNat
              - (c.length - (base - start).toNat)) := by omega
    rw [hk1]
    rw [List.getD_append_right _ _ _ _ (by
      simp only [List.length_append, htl, List.length_replicate]
      omega)]
    rw [getD_drop_add]
    congr 1
    simp only [List.length_append, htl, List.length_replicate]
    omega
  · simp only [hcase, if_false]
    have hklt : (i - (base - start)).toNat
        < (c.take (c.length - (base - start).toNat)).length := by
      rw [htl]; omega
    rw [List.getD_append _ _ _ _ (by
      simp only [List.length_append, htl, List.length_replicate]
      omega)]
    rw [List.getD_append _ _ _ _ hklt]
    rw [getD_take_lt _ _ _ (by rw [htl] at hklt; exact hklt)]

/-- C6: evaluation of the recording algorithm at a failing input.  On a
fresh exponential-bucket histogram aggregator with `max_size = 2`, record a
value with initial-scale index 0 and then one with initial-scale index
2097152 (the values 1 and 4 at the initial scale 20).  The second aggregate
takes the rescale path and `_change_scale` computes exactly the needed 21
scale reductions (after 20 reductions the span would still be 2 ≥ max_size,
after 21 it is 1 < max_size) — but the retried insertion at the new scale
then needs to grow the one-element backing array and raises AttributeError
(`_grow` invokes the nonexistent method `grow_to`; the backing class
defines `grow`), instead of succeeding with a post-downscale span strictly
below max_size as the claim states. -/
theorem expo_hist_rescale_retry_crashes :
    ((do
      let s1 ← (ExponentialBucketHistogramAggregation.init 2 0).aggregate
        { value := 1, index_at_initial_scale := 0 }
      s1.aggregate { value := 4, index_at_initial_scale := 2097152 } :
        Except PyErr ExponentialBucketHistogramAggregation)
      = Except.error PyErr.attribute_error_grow_to)
    ∧ ExponentialBucketHistogramAggregation._change_scale 2097152 0 2 = 21
    ∧ (((2097152 : Int) >>> (21 : Nat)) - ((0 : Int) >>> (21 : Nat)) < 2)
    ∧ ¬ (((2097152 : Int) >>> (20 : Nat)) - ((0 : Int) >>> (20 : Nat)) < 2) := by
  decide

/-- The aggregator state reached from a fresh default-size exponential
histogram by one `aggregate` of the value -1 (initial-scale index 0 of its
absolute value): one count in the negative backing array. -/
def c7_state : ExponentialBucketHistogramAggregation :=
  { _max_size := 160
    shift := 0
    _sum := -1
    _count := 1
    _zero_count := 0
    _min := ((-1 : Int) : WithTop Int)
    _max := ((-1 : Int) : WithBot Int)
    _positive := Buckets.init
    _negative := { _backing := { _counts := [1] }, _index_base := 0,
                   _index_start := 0, _index_end := 0, _counts_attr := none }
    _instrument_temporality := .DELTA
    _start_time_unix_nano := 0
    _previous_point := none }

/-- C7: evaluation of `collect` at a failing input.  After recording one
negative measurement, `collect` emits a point whose negative bucket counts
are `[0]` (the stray `_counts` attribute assigned at lines 457-458) instead
of the recorded snapshot `[1]`; the backing array is NOT reset (it still
holds `[1]` after the collect); and a second collect with no intervening
aggregate is not `None` — it emits another point still counting the same
measurement (count 1), so the next collection interval does not start from
empty bucket counts.  The scalar parts (`sum`, and the min / max reset) do
behave as the claim says: the emitted sum is the pre-reset -1 and the
stored sum is reset to 0. -/
theorem expo_hist_collect_does_not_reset :
    ((ExponentialBucketHistogramAggregation.init 160 0).aggregate
        { value := -1, index_at_initial_scale := 0 } = Except.ok c7_state)
    ∧ (((c7_state.collect .DELTA 1).fst.map fun p => p.negative.bucket_counts)
        = some [0])
    ∧ (((c7_state.collect .DELTA 1).fst.map fun p => p.sum) = some (-1))
    ∧ (((c7_state.collect .DELTA 1).fst.map fun p => p.count) = some 1)
    ∧ ((c7_state.collect .DELTA 1).snd._negative._backing._counts = [1])
    ∧ ((c7_state.collect .DELTA 1).snd._sum = 0)
    ∧ (((c7_state.collect .DELTA 1).snd.collect .DELTA 2).fst ≠ none)
    ∧ (((c7_state.collect .DELTA 1).snd.collect .DELTA 2).fst.map
        (fun p => p.count) = some 1) := by
  decide

/-- C8: evaluation of the growth path at a failing input.  With one count
recorded at index 0 (backing `[1]`), inserting at index 1 has span
1 < max_size = 160 but span ≥ backing size 1, so `_increment_index_by`
enters the growth path — and raises AttributeError, because `_grow` invokes
`grow_to`, a method the backing class does not define (it defines `grow`).
No growth ever happens, so no count is ever preserved across `_grow`; the
preservation property itself holds for the `grow` the backing actually
defines, see `backing_grow_preserves_at_position`. -/
theorem expo_hist_grow_crashes :
    (ExponentialBucketHistogramAggregation._increment_index_by 160
      { _backing := { _counts := [1] }, _index_base := 0, _index_start := 0,
        _index_end := 0, _counts_attr := none } 1 1
      = Except.error PyErr.attribute_error_grow_to)
    ∧ (ExponentialBucketHistogramAggregation._grow
        { _backing := { _counts := [1] }, _index_base := 0, _index_start := 0,
          _index_end := 0, _counts_attr := none } 2
      = Except.error PyErr.attribute_error_grow_to) := by
  decide

end OTel
